import Mathlib

/-!
Verification of the grid-viewport math of the WebGPU demo repository.

The development shallowly embeds the arithmetic core of `src/grid2d.js`
(two variants: a pan/zoom line grid and a selectable cell grid) and the
startup failure path of `src/minor.js` over exact rational arithmetic.
JavaScript numbers are modelled as `ℚ`, integer loop indices as `ℤ`,
`Math.floor`/`Math.ceil` as `Int.floor`/`Int.ceil`, and the JavaScript
remainder operator `%` (which truncates toward zero) as `Int.tmod`.
-/

namespace Grid2D

/-- Source: `const baseCellSize = 50.0` — base logical cell size in pixels. -/
def baseCellSize : ℚ := 50

/-- Source: `const sectionInterval = 5` — every 5th line is a major line. -/
def sectionInterval : ℤ := 5

/-- Mutable camera state of the line-grid demo: `currentZoom` and
`panOffset = {x, y}` (pan offset in pixels). -/
structure Camera where
  zoom : ℚ
  panX : ℚ
  panY : ℚ

/-- Source: `const effectiveCellSize = baseCellSize * currentZoom`. -/
def effectiveCellSize (zoom : ℚ) : ℚ := baseCellSize * zoom

/-- Pixel x-coordinate of the grid origin: `canvas.width / 2 + panOffset.x`
(centre of the canvas plus the pan offset). -/
def gridOriginX (width : ℚ) (c : Camera) : ℚ := width / 2 + c.panX

/-- Pixel y-coordinate of the grid origin: `canvas.height / 2 + panOffset.y`. -/
def gridOriginY (height : ℚ) (c : Camera) : ℚ := height / 2 + c.panY

/-- One scalar axis of the vertex-shader mapping
`pixel_pos = logical_pos * scale_factor_xy + grid_origin_pixels_xy`. -/
def logicalToPixel (l sc origin : ℚ) : ℚ := l * sc + origin

/-- The inverse mapping used by the wheel handler:
`logical_pos = (pixel_pos - grid_origin_pixels_xy) / scale_factor_xy`. -/
def pixelToLogical (p sc origin : ℚ) : ℚ := (p - origin) / sc

/-- Source: `Math.max(0.05, Math.min(currentZoom, 20.0))` — the zoom clamp of the
line-grid wheel handler. -/
def clampZoom (z : ℚ) : ℚ := max (1/20) (min z 20)

/-- Source: `const scroll = event.deltaY < 0 ? 1 : -1;`
`const zoomFactor = 1 + scroll * zoomIntensity` with `zoomIntensity = 0.1`. -/
def zoomFactor (deltaY : ℚ) : ℚ := 1 + (if deltaY < 0 then (1 : ℚ) else -1) * (1/10)

/-- The `wheel` event handler of the line-grid demo: multiply the zoom by the
wheel factor, clamp it, then recompute the pan offset so that the logical
point under the cursor stays under the cursor. -/
def wheelHandler (w h : ℚ) (c : Camera) (mouseX mouseY deltaY : ℚ) : Camera :=
  let oldZoom := c.zoom
  let newZoom := clampZoom (c.zoom * zoomFactor deltaY)
  let logicalMouseX := (mouseX - (w / 2 + c.panX)) / (baseCellSize * oldZoom)
  let logicalMouseY := (mouseY - (h / 2 + c.panY)) / (baseCellSize * oldZoom)
  { zoom := newZoom
    panX := mouseX - w / 2 - logicalMouseX * (baseCellSize * newZoom)
    panY := mouseY - h / 2 - logicalMouseY * (baseCellSize * newZoom) }

/-- A finite sequence of wheel events (mouseX, mouseY, deltaY), applied
left to right through the wheel handler. -/
def applyWheelEvents (w h : ℚ) (c : Camera) (events : List (ℚ × ℚ × ℚ)) : Camera :=
  events.foldl (fun st e => wheelHandler w h st e.1 e.2.1 e.2.2) c

theorem clampZoom_bounds (z : ℚ) : 1/20 ≤ clampZoom z ∧ clampZoom z ≤ 20 :=
  ⟨le_max_left _ _, max_le (by norm_num) (min_le_right _ _)⟩

/-- Claim C1: the pixel-to-logical conversion is the exact algebraic inverse of
the logical-to-pixel conversion: for every logical point (lx, ly), camera
state and viewport size, converting to pixels (with scale
`baseCellSize * zoom` and origin `viewport centre + panOffset`) and back
returns the point exactly over rational arithmetic, provided
`baseCellSize * zoom ≠ 0`. -/
theorem pixelToLogical_leftInverse (w h lx ly : ℚ) (c : Camera)
    (hz : effectiveCellSize c.zoom ≠ 0) :
    pixelToLogical (logicalToPixel lx (effectiveCellSize c.zoom) (gridOriginX w c))
        (effectiveCellSize c.zoom) (gridOriginX w c) = lx ∧
    pixelToLogical (logicalToPixel ly (effectiveCellSize c.zoom) (gridOriginY h c))
        (effectiveCellSize c.zoom) (gridOriginY h c) = ly := by
  unfold pixelToLogical logicalToPixel
  constructor <;> field_simp

theorem pixelToLogical_leftInverse_witness :
    effectiveCellSize (1 : ℚ) ≠ 0 ∧
    (pixelToLogical (logicalToPixel 7 (effectiveCellSize 1) (gridOriginX 200 ⟨1, 3, 4⟩))
        (effectiveCellSize 1) (gridOriginX 200 ⟨1, 3, 4⟩) = 7 ∧
      pixelToLogical (logicalToPixel (-2) (effectiveCellSize 1) (gridOriginY 100 ⟨1, 3, 4⟩))
        (effectiveCellSize 1) (gridOriginY 100 ⟨1, 3, 4⟩) = -2) :=
  ⟨by norm_num [effectiveCellSize, baseCellSize],
   pixelToLogical_leftInverse 200 100 7 (-2) ⟨1, 3, 4⟩
     (by norm_num [effectiveCellSize, baseCellSize])⟩

/-- Claim C10: zoom is anchored at the cursor. For every wheel event at mouse
position (mouseX, mouseY), mapping the mouse position to logical space with
the old camera state and back to pixel space with the new camera state (as
computed by the wheel handler) returns the mouse position exactly, over exact
arithmetic, provided `baseCellSize * oldZoom ≠ 0`. -/
theorem wheelHandler_anchors_cursor (w h mouseX mouseY deltaY : ℚ) (c : Camera)
    (hz : baseCellSize * c.zoom ≠ 0) :
    logicalToPixel (pixelToLogical mouseX (baseCellSize * c.zoom) (gridOriginX w c))
        (baseCellSize * (wheelHandler w h c mouseX mouseY deltaY).zoom)
        (gridOriginX w (wheelHandler w h c mouseX mouseY deltaY)) = mouseX ∧
    logicalToPixel (pixelToLogical mouseY (baseCellSize * c.zoom) (gridOriginY h c))
        (baseCellSize * (wheelHandler w h c mouseX mouseY deltaY).zoom)
        (gridOriginY h (wheelHandler w h c mouseX mouseY deltaY)) = mouseY := by
  simp only [wheelHandler, logicalToPixel, pixelToLogical, gridOriginX, gridOriginY]
  constructor <;> ring

theorem wheelHandler_anchors_cursor_witness :
    baseCellSize * (Camera.mk 1 0 0).zoom ≠ 0 ∧
    (logicalToPixel
        (pixelToLogical 10 (baseCellSize * (Camera.mk 1 0 0).zoom) (gridOriginX 100 ⟨1, 0, 0⟩))
        (baseCellSize * (wheelHandler 100 100 ⟨1, 0, 0⟩ 10 10 (-1)).zoom)
        (gridOriginX 100 (wheelHandler 100 100 ⟨1, 0, 0⟩ 10 10 (-1))) = 10 ∧
      logicalToPixel
        (pixelToLogical 10 (baseCellSize * (Camera.mk 1 0 0).zoom) (gridOriginY 100 ⟨1, 0, 0⟩))
        (baseCellSize * (wheelHandler 100 100 ⟨1, 0, 0⟩ 10 10 (-1)).zoom)
        (gridOriginY 100 (wheelHandler 100 100 ⟨1, 0, 0⟩ 10 10 (-1))) = 10) :=
  ⟨by norm_num [baseCellSize],
   wheelHandler_anchors_cursor 100 100 10 10 (-1) ⟨1, 0, 0⟩ (by norm_num [baseCellSize])⟩

/-- Claim C5: starting from any zoom inside the configured range
[0.05, 20.0], after any finite sequence of wheel zoom events (each
multiplying the zoom by 1 ± 0.1 and then clamping), the zoom never leaves
the range — the clamp invariant is preserved by every zoom update. -/
theorem zoom_clamp_invariant (w h : ℚ) (c : Camera) (events : List (ℚ × ℚ × ℚ))
    (h1 : 1/20 ≤ c.zoom) (h2 : c.zoom ≤ 20) :
    1/20 ≤ (applyWheelEvents w h c events).zoom ∧
      (applyWheelEvents w h c events).zoom ≤ 20 := by
  induction events generalizing c with
  | nil => exact ⟨h1, h2⟩
  | cons e rest ih =>
      have hstep : applyWheelEvents w h c (e :: rest) =
          applyWheelEvents w h (wheelHandler w h c e.1 e.2.1 e.2.2) rest := rfl
      rw [hstep]
      exact ih _ (clampZoom_bounds _).1 (clampZoom_bounds _).2

theorem zoom_clamp_invariant_witness :
    1/20 ≤ (Camera.mk 1 0 0).zoom ∧ (Camera.mk 1 0 0).zoom ≤ 20 ∧
    (1/20 ≤ (applyWheelEvents 100 100 ⟨1, 0, 0⟩ [(0, 0, -1), (0, 0, 1), (0, 0, 1)]).zoom ∧
      (applyWheelEvents 100 100 ⟨1, 0, 0⟩ [(0, 0, -1), (0, 0, 1), (0, 0, 1)]).zoom ≤ 20) :=
  ⟨by norm_num, by norm_num,
   zoom_clamp_invariant 100 100 ⟨1, 0, 0⟩ [(0, 0, -1), (0, 0, 1), (0, 0, 1)]
     (by norm_num) (by norm_num)⟩

/-- Source: `viewMinLogicalX = (-(initialGridOriginX + panOffset.x)) / effectiveCellSize - 5`,
with `initialGridOriginX = canvas.width / 2`. -/
def viewMinLogicalX (w : ℚ) (c : Camera) : ℚ :=
  (-(w / 2 + c.panX)) / effectiveCellSize c.zoom - 5

/-- Source: `viewMaxLogicalX = (canvas.width - (initialGridOriginX + panOffset.x)) / effectiveCellSize + 5`. -/
def viewMaxLogicalX (w : ℚ) (c : Camera) : ℚ :=
  (w - (w / 2 + c.panX)) / effectiveCellSize c.zoom + 5

/-- Source: `viewMinLogicalY = (-(initialGridOriginY + panOffset.y)) / effectiveCellSize - 5`. -/
def viewMinLogicalY (h : ℚ) (c : Camera) : ℚ :=
  (-(h / 2 + c.panY)) / effectiveCellSize c.zoom - 5

/-- Source: `viewMaxLogicalY = (canvas.height - (initialGridOriginY + panOffset.y)) / effectiveCellSize + 5`. -/
def viewMaxLogicalY (h : ℚ) (c : Camera) : ℚ :=
  (h - (h / 2 + c.panY)) / effectiveCellSize c.zoom + 5

/-- The inclusive integer range [lo, hi] as a list, in increasing order. -/
def intRange (lo hi : ℤ) : List ℤ :=
  (List.range (hi + 1 - lo).toNat).map (fun i : ℕ => lo + (i : ℤ))

/-- Source: `lx % sectionInterval === 0` — the major/minor classifier. JavaScript `%`
is the remainder truncating toward zero, i.e. `Int.tmod`. -/
def lineIsMajor (i : ℤ) : Bool := Int.tmod i sectionInterval == 0

/-- One pushed group of four floats `[x1, y1, x2, y2]`: the two endpoints of
one line in the `line-list` vertex array. -/
structure Seg where
  x1 : ℚ
  y1 : ℚ
  x2 : ℚ
  y2 : ℚ
deriving DecidableEq

/-- Vertical line at logical x-index `lx`:
`[lx, viewMinLogicalY - 5, lx, viewMaxLogicalY + 5]`. -/
def vertSeg (h : ℚ) (c : Camera) (lx : ℤ) : Seg :=
  ⟨lx, viewMinLogicalY h c - 5, lx, viewMaxLogicalY h c + 5⟩

/-- Horizontal line at logical y-index `ly`:
`[viewMinLogicalX - 5, ly, viewMaxLogicalX + 5, ly]`. -/
def horizSeg (w : ℚ) (c : Camera) (ly : ℤ) : Seg :=
  ⟨viewMinLogicalX w c - 5, ly, viewMaxLogicalX w c + 5, ly⟩

/-- The x-indices of the vertical lines the generator loops over:
`for (let lx = Math.floor(viewMinLogicalX); lx <= Math.ceil(viewMaxLogicalX); lx++)`,
empty when the early return `if (effectiveCellSize < 2) return` fires. -/
def emittedVerticalIndices (w : ℚ) (c : Camera) : List ℤ :=
  if effectiveCellSize c.zoom < 2 then []
  else intRange ⌊viewMinLogicalX w c⌋ ⌈viewMaxLogicalX w c⌉

/-- The y-indices of the horizontal lines the generator loops over. -/
def emittedHorizontalIndices (h : ℚ) (c : Camera) : List ℤ :=
  if effectiveCellSize c.zoom < 2 then []
  else intRange ⌊viewMinLogicalY h c⌋ ⌈viewMaxLogicalY h c⌉

/-- Source: `generateGridVertices`: result is `(majorLineVertices, minorLineVertices)`.
Each loop iteration classifies the index with `% sectionInterval === 0` and
pushes the endpoint group onto the major or the minor array; verticals come
first, then horizontals, both in increasing index order. -/
def generateGridVertices (w h : ℚ) (c : Camera) : List Seg × List Seg :=
  (((emittedVerticalIndices w c).filter lineIsMajor).map (vertSeg h c)
      ++ ((emittedHorizontalIndices h c).filter lineIsMajor).map (horizSeg w c),
   ((emittedVerticalIndices w c).filter (fun i => !lineIsMajor i)).map (vertSeg h c)
      ++ ((emittedHorizontalIndices h c).filter (fun i => !lineIsMajor i)).map (horizSeg w c))

theorem mem_intRange {lo hi x : ℤ} : x ∈ intRange lo hi ↔ lo ≤ x ∧ x ≤ hi := by
  unfold intRange
  rw [List.mem_map]
  constructor
  · rintro ⟨i, hmem, rfl⟩
    rw [List.mem_range] at hmem
    omega
  · rintro ⟨hle1, hle2⟩
    refine ⟨(x - lo).toNat, ?_, ?_⟩
    · rw [List.mem_range]
      omega
    · omega

/-- Claim C3: when `baseCellSize * zoom < 2` the generator produces an empty
result on both axes — no major and no minor vertices, and empty index ranges,
rather than an error. -/
theorem generateGridVertices_degenerate (w h : ℚ) (c : Camera)
    (hz : effectiveCellSize c.zoom < 2) :
    generateGridVertices w h c = ([], []) ∧
    emittedVerticalIndices w c = [] ∧ emittedHorizontalIndices h c = [] := by
  simp [generateGridVertices, emittedVerticalIndices, emittedHorizontalIndices, hz]

theorem generateGridVertices_degenerate_witness :
    effectiveCellSize (Camera.mk (1/100) 0 0).zoom < 2 ∧
    (generateGridVertices 640 480 ⟨1/100, 0, 0⟩ = ([], []) ∧
      emittedVerticalIndices 640 ⟨1/100, 0, 0⟩ = [] ∧
      emittedHorizontalIndices 480 ⟨1/100, 0, 0⟩ = []) :=
  ⟨by norm_num [effectiveCellSize, baseCellSize],
   generateGridVertices_degenerate 640 480 ⟨1/100, 0, 0⟩
     (by norm_num [effectiveCellSize, baseCellSize])⟩

theorem lineIsMajor_iff (i : ℤ) : lineIsMajor i = true ↔ i % sectionInterval = 0 := by
  unfold lineIsMajor
  rw [beq_iff_eq]
  constructor
  · intro hmod
    exact Int.emod_eq_zero_of_dvd (Int.dvd_of_tmod_eq_zero hmod)
  · intro hmod
    exact Int.tmod_eq_zero_of_dvd (Int.dvd_of_emod_eq_zero hmod)

/-- Claim C4: the classifier marks an index (negative indices included) as
major exactly when `index mod sectionInterval = 0` under mathematical
(Euclidean) modulo; for `sectionInterval = 5`, indices -10, -5, 0, 5, 10 are
major and -3, -1, 1, 3, 7 are minor. -/
theorem lineIsMajor_spec :
    (∀ i : ℤ, lineIsMajor i = true ↔ i % sectionInterval = 0) ∧
    (lineIsMajor (-10) = true ∧ lineIsMajor (-5) = true ∧ lineIsMajor 0 = true ∧
      lineIsMajor 5 = true ∧ lineIsMajor 10 = true) ∧
    (lineIsMajor (-3) = false ∧ lineIsMajor (-1) = false ∧ lineIsMajor 1 = false ∧
      lineIsMajor 3 = false ∧ lineIsMajor 7 = false) :=
  ⟨lineIsMajor_iff, by decide, by decide⟩

/-- Claim C6: above the degenerate threshold, the emitted line indices on each
axis are exactly the inclusive range `[⌊minLogical⌋ - 5, ⌈maxLogical⌉ + 5]`
(margin 5), where the logical bounds come from applying `pixelToLogical` to
the two opposite pixel extremes (0 and width, resp. 0 and height). -/
theorem emittedIndices_eq_margin_range (w h : ℚ) (c : Camera)
    (hz : 2 ≤ effectiveCellSize c.zoom) :
    emittedVerticalIndices w c =
      intRange (⌊pixelToLogical 0 (effectiveCellSize c.zoom) (gridOriginX w c)⌋ - 5)
        (⌈pixelToLogical w (effectiveCellSize c.zoom) (gridOriginX w c)⌉ + 5) ∧
    emittedHorizontalIndices h c =
      intRange (⌊pixelToLogical 0 (effectiveCellSize c.zoom) (gridOriginY h c)⌋ - 5)
        (⌈pixelToLogical h (effectiveCellSize c.zoom) (gridOriginY h c)⌉ + 5) := by
  have hlt : ¬ effectiveCellSize c.zoom < 2 := not_lt.mpr hz
  have hminX : viewMinLogicalX w c =
      pixelToLogical 0 (effectiveCellSize c.zoom) (gridOriginX w c) - ((5 : ℤ) : ℚ) := by
    unfold viewMinLogicalX pixelToLogical gridOriginX
    push_cast
    ring
  have hmaxX : viewMaxLogicalX w c =
      pixelToLogical w (effectiveCellSize c.zoom) (gridOriginX w c) + ((5 : ℤ) : ℚ) := by
    unfold viewMaxLogicalX pixelToLogical gridOriginX
    push_cast
    ring
  have hminY : viewMinLogicalY h c =
      pixelToLogical 0 (effectiveCellSize c.zoom) (gridOriginY h c) - ((5 : ℤ) : ℚ) := by
    unfold viewMinLogicalY pixelToLogical gridOriginY
    push_cast
    ring
  have hmaxY : viewMaxLogicalY h c =
      pixelToLogical h (effectiveCellSize c.zoom) (gridOriginY h c) + ((5 : ℤ) : ℚ) := by
    unfold viewMaxLogicalY pixelToLogical gridOriginY
    push_cast
    ring
  constructor
  · rw [emittedVerticalIndices, if_neg hlt, hminX, hmaxX, Int.floor_sub_int, Int.ceil_add_int]
  · rw [emittedHorizontalIndices, if_neg hlt, hminY, hmaxY, Int.floor_sub_int, Int.ceil_add_int]

theorem emittedIndices_eq_margin_range_witness :
    2 ≤ effectiveCellSize (Camera.mk 1 0 0).zoom ∧
    (emittedVerticalIndices 100 ⟨1, 0, 0⟩ =
        intRange (⌊pixelToLogical 0 (effectiveCellSize (Camera.mk 1 0 0).zoom)
            (gridOriginX 100 ⟨1, 0, 0⟩)⌋ - 5)
          (⌈pixelToLogical 100 (effectiveCellSize (Camera.mk 1 0 0).zoom)
            (gridOriginX 100 ⟨1, 0, 0⟩)⌉ + 5) ∧
      emittedHorizontalIndices 80 ⟨1, 0, 0⟩ =
        intRange (⌊pixelToLogical 0 (effectiveCellSize (Camera.mk 1 0 0).zoom)
            (gridOriginY 80 ⟨1, 0, 0⟩)⌋ - 5)
          (⌈pixelToLogical 80 (effectiveCellSize (Camera.mk 1 0 0).zoom)
            (gridOriginY 80 ⟨1, 0, 0⟩)⌉ + 5)) :=
  ⟨by norm_num [effectiveCellSize, baseCellSize],
   emittedIndices_eq_margin_range 100 80 ⟨1, 0, 0⟩
     (by norm_num [effectiveCellSize, baseCellSize])⟩

/-- Claim C2: above the degenerate threshold, the generated lines cover the
full viewport plus the margin: every vertical line whose logical x-index maps
to a pixel x in [0, width] is among the emitted vertical indices, every
horizontal line whose logical y-index maps to a pixel y in [0, height] is
among the emitted horizontal indices, and each emitted segment spans at least
the visible logical range of the perpendicular axis plus the margin 5. -/
theorem grid_coverage (w h : ℚ) (c : Camera) (hw : 1 ≤ w) (hh : 1 ≤ h)
    (hz : 2 ≤ effectiveCellSize c.zoom) :
    (∀ lx : ℤ,
      0 ≤ logicalToPixel lx (effectiveCellSize c.zoom) (gridOriginX w c) →
      logicalToPixel lx (effectiveCellSize c.zoom) (gridOriginX w c) ≤ w →
      lx ∈ emittedVerticalIndices w c) ∧
    (∀ ly : ℤ,
      0 ≤ logicalToPixel ly (effectiveCellSize c.zoom) (gridOriginY h c) →
      logicalToPixel ly (effectiveCellSize c.zoom) (gridOriginY h c) ≤ h →
      ly ∈ emittedHorizontalIndices h c) ∧
    (∀ lx : ℤ, lx ∈ emittedVerticalIndices w c →
      (vertSeg h c lx).y1 ≤
          pixelToLogical 0 (effectiveCellSize c.zoom) (gridOriginY h c) - 5 ∧
        pixelToLogical h (effectiveCellSize c.zoom) (gridOriginY h c) + 5 ≤
          (vertSeg h c lx).y2) ∧
    (∀ ly : ℤ, ly ∈ emittedHorizontalIndices h c →
      (horizSeg w c ly).x1 ≤
          pixelToLogical 0 (effectiveCellSize c.zoom) (gridOriginX w c) - 5 ∧
        pixelToLogical w (effectiveCellSize c.zoom) (gridOriginX w c) + 5 ≤
          (horizSeg w c ly).x2) := by
  have heff : (0 : ℚ) < effectiveCellSize c.zoom := by linarith
  have hlt : ¬ effectiveCellSize c.zoom < 2 := not_lt.mpr hz
  refine ⟨?_, ?_, ?_, ?_⟩
  · intro lx h0 h1
    rw [emittedVerticalIndices, if_neg hlt, mem_intRange]
    unfold logicalToPixel gridOriginX at h0 h1
    constructor
    · have hq : viewMinLogicalX w c ≤ (lx : ℚ) := by
        unfold viewMinLogicalX
        have hdiv : (-(w / 2 + c.panX)) / effectiveCellSize c.zoom ≤ (lx : ℚ) := by
          rw [div_le_iff₀ heff]
          linarith
        linarith
      have := Int.floor_mono hq
      rwa [Int.floor_intCast] at this
    · have hq : (lx : ℚ) ≤ viewMaxLogicalX w c := by
        unfold viewMaxLogicalX
        have hdiv : (lx : ℚ) ≤ (w - (w / 2 + c.panX)) / effectiveCellSize c.zoom := by
          rw [le_div_iff₀ heff]
          linarith
        linarith
      have := Int.ceil_mono hq
      rwa [Int.ceil_intCast] at this
  · intro ly h0 h1
    rw [emittedHorizontalIndices, if_neg hlt, mem_intRange]
    unfold logicalToPixel gridOriginY at h0 h1
    constructor
    · have hq : viewMinLogicalY h c ≤ (ly : ℚ) := by
        unfold viewMinLogicalY
        have hdiv : (-(h / 2 + c.panY)) / effectiveCellSize c.zoom ≤ (ly : ℚ) := by
          rw [div_le_iff₀ heff]
          linarith
        linarith
      have := Int.floor_mono hq
      rwa [Int.floor_intCast] at this
    · have hq : (ly : ℚ) ≤ viewMaxLogicalY h c := by
        unfold viewMaxLogicalY
        have hdiv : (ly : ℚ) ≤ (h - (h / 2 + c.panY)) / effectiveCellSize c.zoom := by
          rw [le_div_iff₀ heff]
          linarith
        linarith
      have := Int.ceil_mono hq
      rwa [Int.ceil_intCast] at this
  · intro lx _
    unfold vertSeg viewMinLogicalY viewMaxLogicalY pixelToLogical gridOriginY
    have hnum : (-(h / 2 + c.panY)) / effectiveCellSize c.zoom =
        (0 - (h / 2 + c.panY)) / effectiveCellSize c.zoom := by ring
    constructor <;> simp only [hnum] <;> linarith
  · intro ly _
    unfold horizSeg viewMinLogicalX viewMaxLogicalX pixelToLogical gridOriginX
    have hnum : (-(w / 2 + c.panX)) / effectiveCellSize c.zoom =
        (0 - (w / 2 + c.panX)) / effectiveCellSize c.zoom := by ring
    constructor <;> simp only [hnum] <;> linarith

theorem grid_coverage_witness :
    (1 : ℚ) ≤ 100 ∧ (1 : ℚ) ≤ 80 ∧ 2 ≤ effectiveCellSize (Camera.mk 1 0 0).zoom ∧
    (0 : ℚ) ≤ logicalToPixel (0 : ℤ) (effectiveCellSize (Camera.mk 1 0 0).zoom)
        (gridOriginX 100 ⟨1, 0, 0⟩) ∧
    logicalToPixel (0 : ℤ) (effectiveCellSize (Camera.mk 1 0 0).zoom)
        (gridOriginX 100 ⟨1, 0, 0⟩) ≤ 100 ∧
    (0 : ℤ) ∈ emittedVerticalIndices 100 ⟨1, 0, 0⟩ :=
  ⟨by norm_num, by norm_num, by norm_num [effectiveCellSize, baseCellSize],
   by norm_num [logicalToPixel, effectiveCellSize, baseCellSize, gridOriginX],
   by norm_num [logicalToPixel, effectiveCellSize, baseCellSize, gridOriginX],
   (grid_coverage 100 80 ⟨1, 0, 0⟩ (by norm_num) (by norm_num)
       (by norm_num [effectiveCellSize, baseCellSize])).1 0
     (by norm_num [logicalToPixel, effectiveCellSize, baseCellSize, gridOriginX])
     (by norm_num [logicalToPixel, effectiveCellSize, baseCellSize, gridOriginX])⟩

end Grid2D

namespace CellGrid

/-- Source: `const gridSize = 10` — number of cells per row/column in the
selectable cell-grid variant. -/
def gridSize : ℤ := 10

/-- Source: `const cellSize = (Math.min(canvas.width, canvas.height) / gridSize) * scale`. -/
def cellSize (w h sc : ℚ) : ℚ := (min w h / 10) * sc

/-- The cell computation of the click handler:
`gridX = Math.floor((mouseX - cameraPos.x) / cellSize)`,
`gridY = Math.floor((mouseY - cameraPos.y) / cellSize)`,
`cellIndex = gridY * gridSize + gridX`. -/
def pixelToCellIndex (w h sc camX camY mouseX mouseY : ℚ) : ℤ :=
  let cs := cellSize w h sc
  let gridX := ⌊(mouseX - camX) / cs⌋
  let gridY := ⌊(mouseY - camY) / cs⌋
  gridY * gridSize + gridX

/-- The selection update of the click handler: toggle `cellIndex` in the
`selectedCells` set (delete when present, add otherwise), with no bounds
check on the index. -/
def clickHandler (w h sc camX camY : ℚ) (selected : Finset ℤ)
    (mouseX mouseY : ℚ) : Finset ℤ :=
  let idx := pixelToCellIndex w h sc camX camY mouseX mouseY
  if idx ∈ selected then selected.erase idx else insert idx selected

/-- Claim C7: the cell picker maps a mouse position to the flattened index
`⌊(mouseY - cameraOffset.y) / cellSize⌋ * gridSize + ⌊(mouseX - cameraOffset.x) / cellSize⌋`;
with a 200×200 canvas at scale 1 (so `cellSize = 20`), `gridSize = 10` and
zero camera offset, a click at pixel (25, 45) maps to cell index
2 * 10 + 1 = 21. -/
theorem pixelToCellIndex_spec :
    (∀ w h sc camX camY mouseX mouseY : ℚ,
      pixelToCellIndex w h sc camX camY mouseX mouseY =
        ⌊(mouseY - camY) / cellSize w h sc⌋ * gridSize
          + ⌊(mouseX - camX) / cellSize w h sc⌋) ∧
    cellSize 200 200 1 = 20 ∧
    pixelToCellIndex 200 200 1 0 0 25 45 = 21 := by
  refine ⟨fun _ _ _ _ _ _ _ => rfl, by norm_num [cellSize], ?_⟩
  have hx : ⌊((25 : ℚ) - 0) / cellSize 200 200 1⌋ = 1 := by
    rw [show ((25 : ℚ) - 0) / cellSize 200 200 1 = 5/4 by norm_num [cellSize]]
    rw [Int.floor_eq_iff]
    norm_num
  have hy : ⌊((45 : ℚ) - 0) / cellSize 200 200 1⌋ = 2 := by
    rw [show ((45 : ℚ) - 0) / cellSize 200 200 1 = 9/4 by norm_num [cellSize]]
    rw [Int.floor_eq_iff]
    norm_num
  show ⌊((45 : ℚ) - 0) / cellSize 200 200 1⌋ * gridSize
      + ⌊((25 : ℚ) - 0) / cellSize 200 200 1⌋ = 21
  rw [hx, hy]
  norm_num [gridSize]

/-- Claim C9: the cell picker performs no bounds validation — there is a click
position with `mouseX < cameraPos.x` whose computed cell index is negative
(outside [0, gridSize * gridSize - 1]) and is nevertheless toggled into the
selected-cells set rather than rejected or clamped. -/
theorem clickHandler_no_bounds_check :
    ∃ mouseX mouseY : ℚ, mouseX < 0 ∧
      (pixelToCellIndex 200 200 1 0 0 mouseX mouseY < 0 ∨
        gridSize * gridSize - 1 < pixelToCellIndex 200 200 1 0 0 mouseX mouseY) ∧
      pixelToCellIndex 200 200 1 0 0 mouseX mouseY ∈
        clickHandler 200 200 1 0 0 ∅ mouseX mouseY := by
  refine ⟨-5, 5, by norm_num, ?_, ?_⟩
  · left
    have hx : ⌊((-5 : ℚ) - 0) / cellSize 200 200 1⌋ = -1 := by
      rw [show ((-5 : ℚ) - 0) / cellSize 200 200 1 = -(1/4) by norm_num [cellSize]]
      rw [Int.floor_eq_iff]
      norm_num
    have hy : ⌊((5 : ℚ) - 0) / cellSize 200 200 1⌋ = 0 := by
      rw [show ((5 : ℚ) - 0) / cellSize 200 200 1 = 1/4 by norm_num [cellSize]]
      rw [Int.floor_eq_iff]
      norm_num
    show ⌊((5 : ℚ) - 0) / cellSize 200 200 1⌋ * gridSize
        + ⌊((-5 : ℚ) - 0) / cellSize 200 200 1⌋ < 0
    rw [hx, hy]
    norm_num [gridSize]
  · show pixelToCellIndex 200 200 1 0 0 (-5) 5 ∈
      (if pixelToCellIndex 200 200 1 0 0 (-5) 5 ∈ (∅ : Finset ℤ) then
        (∅ : Finset ℤ).erase (pixelToCellIndex 200 200 1 0 0 (-5) 5)
      else insert (pixelToCellIndex 200 200 1 0 0 (-5) 5) ∅)
    rw [if_neg (Finset.not_mem_empty _)]
    exact Finset.mem_insert_self _ _

end CellGrid

namespace Startup

/-- An observable startup action of `main` in `src/minor.js`. -/
inductive Effect where
  | requestDevice
  | alert (msg : String)
  | configureContext
  | createShaderModule (label : String)
  | createRenderPipeline
  | observeResize
deriving DecidableEq

/-- The message passed to `fail` when the device check fails. -/
def failMsg : String := "need a browser that supports WebGPU"

/-- Embedding of `main` in `src/minor.js` as its trace of startup effects:
the adapter/device is requested once; `if (!device)` the handler calls
`fail(...)` — which shows one `alert` — and returns, so no context
configuration, shader compilation, pipeline creation or resize/render
observation happens and the device is never requested again; otherwise the
full setup sequence runs. -/
def mainTrace (deviceAcquired : Bool) : List Effect :=
  Effect.requestDevice ::
    (if deviceAcquired then
      [Effect.configureContext,
       Effect.createShaderModule ("hardcoded triangle"),
       Effect.createShaderModule ("triangle shaders with uniforms"),
       Effect.createShaderModule ("checkerboard"),
       Effect.createRenderPipeline,
       Effect.observeResize]
    else
      [Effect.alert failMsg])

/-- Recognises the user-visible alert effect. -/
def isAlertEffect : Effect → Bool
  | Effect.alert _ => true
  | _ => false

/-- Recognises the adapter/device acquisition effect. -/
def isDeviceRequest : Effect → Bool
  | Effect.requestDevice => true
  | _ => false

/-- Claim C8: when the WebGPU device cannot be acquired at startup, the resulting
effect trace is exactly one device request followed by one user-visible
alert: the failure is reported exactly once, the device is not requested
again (no retry), and no context configuration, pipeline creation or render
observation is attempted. -/
theorem startup_failure_alerts_once_no_retry :
    mainTrace false = [Effect.requestDevice, Effect.alert failMsg] ∧
    ((mainTrace false).filter isAlertEffect).length = 1 ∧
    ((mainTrace false).filter isDeviceRequest).length = 1 ∧
    Effect.configureContext ∉ mainTrace false ∧
    Effect.createRenderPipeline ∉ mainTrace false ∧
    Effect.observeResize ∉ mainTrace false := by
  refine ⟨rfl, rfl, rfl, ?_, ?_, ?_⟩ <;> decide

end Startup
